import Mathlib

/-!
URL collector and extraction orchestrator of the module-extraction frontend.

A shallow embedding of `frontend/src/components/URLInput.jsx` (the URL rows, their
per-row validation errors, submission) and of `frontend/src/App.jsx` (the request
life cycle), followed by the properties proved about them.

Conventions of the embedding.

* A React state variable is a field of a state record; an event handler is a function
  from the state before the event to the state after it.
* The `urlErrors` object is a list of its own properties (key, message).  The functions
  on it do not require the list to be sorted or duplicate free; reading a key returns
  the first property of that name.
* Strings are sequences of Unicode scalar values.
* What the browser provides and the repository does not define (the `URL` constructor,
  number formatting, the text of engine exceptions) is a parameter.
-/

namespace PulseGen

/-! ## Strings -/

/-- Code points removed by `String.prototype.trim`: the ECMAScript `WhiteSpace` and
`LineTerminator` productions. -/
def isJsWhiteSpace (c : Char) : Bool :=
  let n := c.toNat
  n == 0x09 || n == 0x0A || n == 0x0B || n == 0x0C || n == 0x0D || n == 0x20 ||
  n == 0xA0 || n == 0x1680 || (0x2000 ≤ n && n ≤ 0x200A) || n == 0x2028 ||
  n == 0x2029 || n == 0x202F || n == 0x205F || n == 0x3000 || n == 0xFEFF

/-- The characters of `url.trim()`. -/
def trimChars (cs : List Char) : List Char :=
  ((cs.dropWhile isJsWhiteSpace).reverse.dropWhile isJsWhiteSpace).reverse

/-- Source expression `url.trim()`. -/
def jsTrim (s : String) : String := String.mk (trimChars s.data)

/-- Source test `!url.trim()`: the trimmed text is the empty string. -/
def isBlank (url : String) : Bool := (trimChars url.data).isEmpty

/-! ## The error object -/

/-- The `urlErrors` object: its own properties, row index to message. -/
abbrev ErrorMap := List (Nat × String)

namespace ErrorMap

/-- Property read `errors[k]`; `none` stands for `undefined`. -/
def get : ErrorMap → Nat → Option String
  | [], _ => none
  | (k', v) :: rest, k => if k' = k then some v else get rest k

/-- Statement `delete errors[k]`. -/
def delete (m : ErrorMap) (k : Nat) : ErrorMap := m.filter (fun p => p.1 != k)

/-- Assignment `errors[k] = v`; integer keys are kept in ascending order. -/
def set : ErrorMap → Nat → String → ErrorMap
  | [], k, v => [(k, v)]
  | (k', v') :: rest, k, v =>
    if k = k' then (k, v) :: rest
    else if k < k' then (k, v) :: (k', v') :: rest
    else (k', v') :: set rest k v

/-- Keys `Object.keys(errors)`, with `parseInt` already applied to each key. -/
def keys (m : ErrorMap) : List Nat := m.map Prod.fst

end ErrorMap

/-! ## URLInput.jsx -/

/-- The two state variables of `URLInput`. -/
structure State where
  urls : List String
  urlErrors : ErrorMap
deriving DecidableEq, Repr

/-- Initial state: `useState([''])` and `useState({})`. -/
def State.init : State := { urls := [""], urlErrors := [] }

def msgAtLeastOne : String := "Please enter at least one URL"

def msgInvalid : String := "Please enter a valid URL"

/-- Source `validateURL`.  `parses url` tells whether `new URL(url)` returns rather
than throws. -/
def validateURL (parses : String → Bool) (url : String) : Bool :=
  if isBlank url then false
  else if parses url then true else false

/-- Source `handleUrlChange`, for the index of an existing row: `newUrls[index] = value`,
and the error of that row is deleted when `urlErrors[index]` is truthy (a non-empty
string). -/
def handleUrlChange (s : State) (index : Nat) (value : String) : State :=
  let newUrls := s.urls.set index value
  match s.urlErrors.get index with
  | some msg =>
    if msg ≠ "" then { urls := newUrls, urlErrors := s.urlErrors.delete index }
    else { urls := newUrls, urlErrors := s.urlErrors }
  | none => { urls := newUrls, urlErrors := s.urlErrors }

/-- Source `handleAddUrl`. -/
def handleAddUrl (s : State) : State :=
  { urls := s.urls ++ [""], urlErrors := s.urlErrors }

/-- Expression `urls.filter((_, i) => i !== index)`, the rows being numbered from `i`. -/
def filterNotIndex (index : Nat) : List String → Nat → List String
  | [], _ => []
  | url :: rest, i =>
    if i != index then url :: filterNotIndex index rest (i + 1)
    else filterNotIndex index rest (i + 1)

/-- One round of the `forEach` of `handleRemoveUrl` over `Object.keys(newErrors)`. -/
def reindexStep (newErrors : ErrorMap) (index : Nat) (reindexedErrors : ErrorMap)
    (oldIndex : Nat) : ErrorMap :=
  match newErrors.get oldIndex with
  | some msg =>
    if oldIndex > index then reindexedErrors.set (oldIndex - 1) msg
    else if oldIndex < index then reindexedErrors.set oldIndex msg
    else reindexedErrors
  | none => reindexedErrors

/-- The error object built by `handleRemoveUrl`. -/
def reindexErrors (urlErrors : ErrorMap) (index : Nat) : ErrorMap :=
  let newErrors := urlErrors.delete index
  newErrors.keys.foldl (reindexStep newErrors index) []

/-- Source `handleRemoveUrl`. -/
def handleRemoveUrl (s : State) (index : Nat) : State :=
  if s.urls.length = 1 then s
  else
    { urls := filterNotIndex index s.urls 0
      urlErrors := reindexErrors s.urlErrors index }

/-- The `forEach` of `handleSubmit`: `len` is `urls.length`, `index` the number of the
first row still to visit, and the pair is (`errors`, `validUrls`). -/
def submitLoop (parses : String → Bool) (len : Nat) :
    List String → Nat → ErrorMap × List String → ErrorMap × List String
  | [], _, acc => acc
  | url :: rest, index, (errors, validUrls) =>
    if isBlank url then
      if len = 1 then
        submitLoop parses len rest (index + 1) (errors.set index msgAtLeastOne, validUrls)
      else
        submitLoop parses len rest (index + 1) (errors, validUrls)
    else if !validateURL parses url then
      submitLoop parses len rest (index + 1) (errors.set index msgInvalid, validUrls)
    else
      submitLoop parses len rest (index + 1) (errors, validUrls ++ [jsTrim url])

/-- Source `handleSubmit`.  The second component is the argument of the call
`onExtract(validUrls)` when that call is made, and `none` when the handler returns
before it. -/
def handleSubmit (parses : String → Bool) (s : State) : State × Option (List String) :=
  let (errors, validUrls) := submitLoop parses s.urls.length s.urls 0 ([], [])
  if errors.keys.length > 0 then
    ({ urls := s.urls, urlErrors := errors }, none)
  else if validUrls.length = 0 then
    ({ urls := s.urls, urlErrors := [(0, msgAtLeastOne)] }, none)
  else
    (s, some validUrls)

/-- A URL parser for concrete evaluation; the parser itself is a parameter of
`validateURL` and `handleSubmit`.  It accepts a letter-initial scheme followed by `://`
and a non-empty rest, so it accepts `https://a.com` and rejects `not-a-url`, as the
`URL` constructor of a browser does. -/
def sampleUrlParser (url : String) : Bool :=
  let cs := trimChars url.data
  let scheme := cs.takeWhile (fun c => c != ':')
  let rest := cs.dropWhile (fun c => c != ':')
  match scheme, rest with
  | c :: _, ':' :: '/' :: '/' :: _ :: _ => c.isAlpha
  | _, _ => false

/-! ## JSON values and the conversions the program applies to them -/

/-- A value produced by `response.json()`, or `undefined` as the result of reading a
property that does not exist.  A number is given by its value; an object or array by
its own properties or elements. -/
inductive JsValue where
  | undefined
  | null
  | bool (b : Bool)
  | number (q : ℚ)
  | string (s : String)
  | array (items : List JsValue)
  | object (props : List (String × JsValue))

/-- The `message` property of a thrown value; `none` when it has none. -/
abbrev Thrown := Option String

/-- What of the JavaScript engine the program relies on and the repository does not
fix: how a number is printed, whether the number read from a string exceeds zero, how
an object (whose own properties may shadow `toString` and `valueOf`) converts to a
string or compares with zero, and the exception raised on reading a property of
`null` or `undefined`. -/
structure Engine where
  numberToString : ℚ → String
  stringGtZero : String → Bool
  objectToString : List (String × JsValue) → Except Thrown String
  objectGtZero : List (String × JsValue) → Except Thrown Bool
  nullAccess : String → Thrown

namespace JsValue

/-- ToBoolean: the operand test of `||`, `&&` and `if`. -/
def truthy : JsValue → Bool
  | undefined => false
  | null => false
  | bool b => b
  | number q => q != 0
  | string s => s != ""
  | array _ => true
  | object _ => true

/-- Number of UTF-16 code units of a string: its `length`. -/
def utf16Length (s : String) : Nat :=
  (s.data.map (fun c => if c.toNat < 0x10000 then 1 else 2)).sum

/-- The own property `name` of an object. -/
def lookup (name : String) : List (String × JsValue) → Option JsValue
  | [] => none
  | (k, v) :: rest => if k = name then some v else lookup name rest

/-- Property read `v.name`, for the three names the program reads (`modules`, `detail`
and `length`). -/
def getProp (eng : Engine) (v : JsValue) (name : String) : Except Thrown JsValue :=
  match v with
  | undefined => .error (eng.nullAccess name)
  | null => .error (eng.nullAccess name)
  | bool _ => .ok undefined
  | number _ => .ok undefined
  | string s => if name = "length" then .ok (number (utf16Length s)) else .ok undefined
  | array items => if name = "length" then .ok (number items.length) else .ok undefined
  | object props =>
    match lookup name props with
    | some w => .ok w
    | none => .ok undefined

mutual
/-- ToString, as applied by `new Error(message)` to its argument. -/
def toStr (eng : Engine) : JsValue → Except Thrown String
  | undefined => .ok "undefined"
  | null => .ok "null"
  | bool b => .ok (if b then "true" else "false")
  | number q => .ok (eng.numberToString q)
  | string s => .ok s
  | array items => joinStr eng items
  | object props => eng.objectToString props
termination_by structural v => v
/-- The text of `Array.prototype.join` with the separator `,`: an `undefined` or `null`
element contributes the empty string. -/
def joinStr (eng : Engine) : List JsValue → Except Thrown String
  | [] => .ok ""
  | v :: rest =>
    match (match v with
      | undefined => Except.ok ""
      | null => Except.ok ""
      | _ => toStr eng v) with
    | .error e => .error e
    | .ok first =>
      match joinStr eng rest with
      | .error e => .error e
      | .ok others => .ok (if rest.isEmpty then first else first ++ "," ++ others)
termination_by structural vs => vs
end

/-- The comparison `v > 0`. -/
def gtZero (eng : Engine) : JsValue → Except Thrown Bool
  | undefined => .ok false
  | null => .ok false
  | bool b => .ok b
  | number q => .ok (decide (0 < q))
  | string s => .ok (eng.stringGtZero s)
  | array items =>
    match joinStr eng items with
    | .error e => .error e
    | .ok s => .ok (eng.stringGtZero s)
  | object props => eng.objectGtZero props

end JsValue

/-! ## App.jsx -/

/-- The three state variables of `App`; `none` stands for `null` or `undefined`. -/
structure AppState where
  modules : Option JsValue
  loading : Bool
  error : Option String

/-- Initial state of `App`. -/
def AppState.init : AppState := { modules := none, loading := false, error := none }

/-- Settlement of `response.json()`: the parsed body, or a rejection. -/
inductive Body where
  | json (v : JsValue)
  | invalid (err : Thrown)

/-- Settlement of the `fetch` call: rejection, or a response with its `ok` flag and
its body. -/
inductive FetchOutcome where
  | rejected (err : Thrown)
  | response (ok : Bool) (body : Body)

def msgGeneric : String := "Failed to extract modules"

def msgNoModules : String :=
  "No modules found in the documentation. The URLs may not contain extractable module information."

/-- Expression `await response.json()`. -/
def Body.read : Body → Except Thrown JsValue
  | .json v => .ok v
  | .invalid err => .error err

/-- The `try` block of `handleExtract`.  An exception is an `error`; a normal end
carries the argument of `setModules`, or `none` when the block ends with the
`setError` of the "no modules" message. -/
def extractTry (eng : Engine) : FetchOutcome → Except Thrown (Option JsValue)
  | .rejected err => .error err
  | .response ok body =>
    if !ok then do
      let errorData ← body.read
      let detail ← errorData.getProp eng "detail"
      let message ← (if detail.truthy then detail else .string msgGeneric).toStr eng
      .error (some message)
    else do
      let data ← body.read
      let field ← data.getProp eng "modules"
      let extractedModules := if field.truthy then field else data
      if extractedModules.truthy then
        let length ← extractedModules.getProp eng "length"
        if (← length.gtZero eng) then pure (some extractedModules) else pure none
      else pure none

/-- Source `handleExtract`, from the state at the call to the state once the returned
promise has settled; the outcome of the `fetch` request is the argument `o`. -/
def handleExtract (eng : Engine) (s : AppState) (o : FetchOutcome) : AppState :=
  let s := { s with loading := true }
  let s := { s with error := none }
  let s := { s with modules := none }
  let s :=
    match extractTry eng o with
    | .ok (some extractedModules) => { s with modules := some extractedModules }
    | .ok none => { s with error := some msgNoModules }
    | .error err => { s with error := err }
  { s with loading := false }

/-- Method `haystack.includes(needle)` on character lists. -/
def includesChars (needle : List Char) : List Char → Bool
  | [] => needle.isEmpty
  | c :: rest => needle.isPrefixOf (c :: rest) || includesChars needle rest

/-- Method `error.includes(needle)`. -/
def jsIncludes (error needle : String) : Bool := includesChars needle.data error.data

/-- The quota test of the error banner: `error.includes('quota') || error.includes('429')`. -/
def isQuotaError (error : String) : Bool :=
  jsIncludes error "quota" || jsIncludes error "429"

/-- An engine for concrete evaluation: integers print in decimal, the empty string
reads as zero, an object prints as `[object Object]`. -/
def sampleEngine : Engine where
  numberToString := fun q => toString q.num
  stringGtZero := fun s => s.toNat?.any (fun n => 0 < n)
  objectToString := fun _ => .ok "[object Object]"
  objectGtZero := fun _ => .ok false
  nullAccess := fun name => some ("Cannot read properties of null (reading " ++ name ++ ")")

/-! ## Auxiliary functions of the statements -/

/-- The old key whose message lands on the new key `j` when row `index` is removed. -/
def sourceKey (index j : Nat) : Nat := if j < index then j else j + 1

/-- The message the loop of `handleSubmit` records for one row, if any. -/
def rowError (parses : String → Bool) (len : Nat) (url : String) : Option String :=
  if isBlank url then (if len = 1 then some msgAtLeastOne else none)
  else if !validateURL parses url then some msgInvalid
  else none

/-- The message the loop records at key `k` when it starts at row number `i`. -/
def loopError (parses : String → Bool) (len : Nat) (urls : List String) (i k : Nat) :
    Option String :=
  if i ≤ k then (urls[k - i]?).bind (rowError parses len) else none

/-! ## Reachable states and phases -/

/-- States of `URLInput` reachable from the initial one by the four handlers, the
row-addressed ones being called with the index of an existing row. -/
inductive Reachable (parses : String → Bool) : State → Prop
  | init : Reachable parses State.init
  | updateEntry (s : State) (index : Nat) (value : String) :
      Reachable parses s → index < s.urls.length →
      Reachable parses (handleUrlChange s index value)
  | addEntry (s : State) : Reachable parses s → Reachable parses (handleAddUrl s)
  | removeEntry (s : State) (index : Nat) :
      Reachable parses s → index < s.urls.length →
      Reachable parses (handleRemoveUrl s index)
  | submit (s : State) : Reachable parses s → Reachable parses (handleSubmit parses s).1

/-- Phase `Success`: modules set, error absent. -/
def AppState.isSuccess (s : AppState) : Bool := s.modules.isSome && s.error.isNone

/-- Phase `Failure`: modules absent and an error message that the banner
`{error && ...}` displays, that is a non-empty one. -/
def AppState.isFailure (s : AppState) : Bool :=
  s.modules.isNone &&
    (match s.error with
      | some message => message != ""
      | none => false)

/-! ## Facts about the error object -/

namespace ErrorMap

theorem get_set_self (m : ErrorMap) (k : Nat) (v : String) : (m.set k v).get k = some v := by
  induction m with
  | nil => simp [set, get]
  | cons p rest ih =>
    obtain ⟨k', v'⟩ := p
    by_cases h1 : k = k'
    · simp [set, get, h1]
    · by_cases h2 : k < k'
      · simp [set, get, h1, h2]
      · have h3 : k' ≠ k := fun h => h1 h.symm
        simp [set, get, h1, h2, h3, ih]

theorem get_set_of_ne (m : ErrorMap) (k : Nat) (v : String) (j : Nat) (h : j ≠ k) :
    (m.set k v).get j = m.get j := by
  have hkj : k ≠ j := fun e => h e.symm
  induction m with
  | nil => simp [set, get, hkj]
  | cons p rest ih =>
    obtain ⟨k', v'⟩ := p
    by_cases h1 : k = k'
    · subst h1
      simp [set, get, hkj]
    · by_cases h2 : k < k'
      · simp [set, get, h1, h2, hkj]
      · simp [set, get, h1, h2, ih]

theorem get_delete_self (m : ErrorMap) (k : Nat) : (m.delete k).get k = none := by
  induction m with
  | nil => simp [delete, get]
  | cons p rest ih =>
    obtain ⟨k', v'⟩ := p
    by_cases h1 : k' = k
    · simpa [delete, List.filter_cons, h1] using ih
    · simpa [delete, List.filter_cons, h1, get] using ih

theorem get_delete_of_ne (m : ErrorMap) (k j : Nat) (h : j ≠ k) :
    (m.delete k).get j = m.get j := by
  induction m with
  | nil => simp [delete, get]
  | cons p rest ih =>
    obtain ⟨k', v'⟩ := p
    have ih2 : get (List.filter (fun p => p.1 != k) rest) j = get rest j := ih
    by_cases h1 : k' = k
    · have h2 : k' ≠ j := fun e => h (e.symm.trans h1)
      simp only [delete, List.filter_cons, h1, get, bne_self_eq_false, Bool.false_eq_true,
        if_false]
      rw [ih2]
      have h3 : k ≠ j := fun e => h e.symm
      simp [h3]
    · have hb : ((k', v').1 != k) = true := by simp [h1]
      simp only [delete, List.filter_cons, hb, if_true, get]
      rw [ih2]

theorem mem_keys_iff (m : ErrorMap) (k : Nat) : k ∈ m.keys ↔ m.get k ≠ none := by
  induction m with
  | nil => simp [keys, get]
  | cons p rest ih =>
    obtain ⟨k', v'⟩ := p
    by_cases h1 : k' = k
    · simp [keys, get, h1]
    · have h2 : k ≠ k' := fun e => h1 e.symm
      have ih2 : k ∈ List.map Prod.fst rest ↔ get rest k ≠ none := ih
      simp only [keys, List.map_cons, List.mem_cons, get, h1, h2, if_false, false_or]
      exact ih2

end ErrorMap

/-! ## Facts about `handleRemoveUrl` -/

theorem sourceKey_ne (index j : Nat) : sourceKey index j ≠ index := by
  unfold sourceKey
  split <;> omega

theorem get_reindexStep (newErrors : ErrorMap) (index : Nat) (acc : ErrorMap)
    (oldIndex j : Nat) :
    (reindexStep newErrors index acc oldIndex).get j =
      if oldIndex = sourceKey index j then
        (match newErrors.get oldIndex with
          | some msg => some msg
          | none => acc.get j)
      else acc.get j := by
  unfold reindexStep
  cases hg : newErrors.get oldIndex with
  | none => simp
  | some msg =>
    by_cases h : oldIndex = sourceKey index j
    · simp only [h, if_true]
      unfold sourceKey
      by_cases hj : j < index
      · have h1 : ¬ (j > index) := by omega
        simp [hj, h1, ErrorMap.get_set_self]
      · have h1 : j + 1 > index := by omega
        simp [hj, h1, ErrorMap.get_set_self]
    · simp only [h, if_false]
      unfold sourceKey at h
      by_cases h1 : oldIndex > index
      · have hne : j ≠ oldIndex - 1 := by
          intro e
          split at h <;> omega
        simp [h1, ErrorMap.get_set_of_ne _ _ _ _ hne]
      · by_cases h2 : oldIndex < index
        · have hne : j ≠ oldIndex := by
            intro e
            split at h <;> omega
          simp [h1, h2, ErrorMap.get_set_of_ne _ _ _ _ hne]
        · simp [h1, h2]

theorem get_foldl_reindexStep (newErrors : ErrorMap) (index : Nat) (ks : List Nat)
    (acc : ErrorMap) (j : Nat) :
    (ks.foldl (reindexStep newErrors index) acc).get j =
      if sourceKey index j ∈ ks then
        (match newErrors.get (sourceKey index j) with
          | some msg => some msg
          | none => acc.get j)
      else acc.get j := by
  induction ks generalizing acc with
  | nil => simp
  | cons k rest ih =>
    rw [List.foldl_cons, ih, get_reindexStep]
    by_cases h1 : sourceKey index j ∈ rest
    · by_cases h2 : k = sourceKey index j
      · subst h2
        cases hg : newErrors.get (sourceKey index j) <;> simp [h1, hg]
      · have h3 : sourceKey index j ≠ k := fun e => h2 e.symm
        simp [h1, h2, h3]
    · by_cases h2 : k = sourceKey index j
      · subst h2
        simp [h1]
      · have h3 : sourceKey index j ≠ k := fun e => h2 e.symm
        simp [h1, h2, h3]

/-- Reading the reindexed object at `j` is reading the old object at the key that
moved to `j`. -/
theorem get_reindexErrors (urlErrors : ErrorMap) (index j : Nat) :
    (reindexErrors urlErrors index).get j = urlErrors.get (sourceKey index j) := by
  unfold reindexErrors
  simp only
  rw [get_foldl_reindexStep, ErrorMap.get_delete_of_ne _ _ _ (sourceKey_ne index j)]
  by_cases h : sourceKey index j ∈ (urlErrors.delete index).keys
  · simp only [h, if_true]
    cases hg : urlErrors.get (sourceKey index j) <;> simp [ErrorMap.get]
  · simp only [h, if_false]
    rw [ErrorMap.mem_keys_iff, ErrorMap.get_delete_of_ne _ _ _ (sourceKey_ne index j)] at h
    simp only [ne_eq, not_not] at h
    simp [h, ErrorMap.get]

theorem length_filterNotIndex (index : Nat) (urls : List String) (i : Nat)
    (h1 : i ≤ index) (h2 : index < i + urls.length) :
    (filterNotIndex index urls i).length + 1 = urls.length := by
  induction urls generalizing i with
  | nil => simp at h2; omega
  | cons url rest ih =>
    by_cases h : i = index
    · subst h
      have hrest : ∀ (l : List String) (k : Nat), i < k → filterNotIndex i l k = l := by
        intro l
        induction l with
        | nil => intro k _; rfl
        | cons a t iht =>
          intro k hk
          have hk2 : k ≠ i := by omega
          simp [filterNotIndex, hk2, iht (k + 1) (by omega)]
      simp [filterNotIndex, hrest rest (i + 1) (by omega)]
    · have h3 := ih (i + 1) (by omega) (by simp at h2; omega)
      simp [filterNotIndex, h]
      omega

/-! ## Facts about `handleSubmit` -/

theorem submitLoop_snd (parses : String → Bool) (len : Nat) (urls : List String) (i : Nat)
    (errors : ErrorMap) (validUrls : List String) :
    (submitLoop parses len urls i (errors, validUrls)).2 =
      validUrls ++ (urls.filter (fun u => !isBlank u && validateURL parses u)).map jsTrim := by
  induction urls generalizing i errors validUrls with
  | nil => simp [submitLoop]
  | cons u rest ih =>
    by_cases hb : isBlank u = true
    · by_cases hl : len = 1
      · subst hl
        simp [submitLoop, hb, ih]
      · simp [submitLoop, hb, hl, ih]
    · by_cases hv : validateURL parses u = true
      · simp [submitLoop, hb, hv, ih]
      · simp [submitLoop, hb, hv, ih]

theorem submitLoop_get (parses : String → Bool) (len : Nat) (urls : List String) (i : Nat)
    (errors : ErrorMap) (validUrls : List String) (k : Nat) :
    (submitLoop parses len urls i (errors, validUrls)).1.get k =
      (match loopError parses len urls i k with
        | some msg => some msg
        | none => errors.get k) := by
  induction urls generalizing i errors validUrls with
  | nil => simp [submitLoop, loopError]
  | cons u rest ih =>
    have key : ∀ (e2 : ErrorMap) (v2 : List String),
        (e2.get k = match (if i = k then rowError parses len u else none) with
          | some msg => some msg
          | none => errors.get k) →
        (submitLoop parses len rest (i + 1) (e2, v2)).1.get k =
          (match loopError parses len (u :: rest) i k with
            | some msg => some msg
            | none => errors.get k) := by
      intro e2 v2 he2
      rw [ih, he2]
      unfold loopError
      by_cases h1 : i = k
      · subst h1
        have h2 : ¬ (i + 1 ≤ i) := by omega
        simp [h2]
      · by_cases h2 : i + 1 ≤ k
        · have h3 : i ≤ k := by omega
          have h4 : k - i = (k - (i + 1)) + 1 := by omega
          simp only [h2, h3, h1, if_true, if_false]
          rw [h4, List.getElem?_cons_succ]
        · have h3 : ¬ (i ≤ k) := by omega
          simp [h2, h3, h1]
    by_cases hb : isBlank u = true
    · by_cases hl : len = 1
      · have hstep : submitLoop parses len (u :: rest) i (errors, validUrls) =
            submitLoop parses len rest (i + 1) (errors.set i msgAtLeastOne, validUrls) := by
          simp [submitLoop, hb, hl]
        rw [hstep]
        apply key
        by_cases h1 : i = k
        · subst h1
          simp [rowError, hb, hl, ErrorMap.get_set_self]
        · have h2 : k ≠ i := fun e => h1 e.symm
          simp [h1, ErrorMap.get_set_of_ne _ _ _ _ h2]
      · have hstep : submitLoop parses len (u :: rest) i (errors, validUrls) =
            submitLoop parses len rest (i + 1) (errors, validUrls) := by
          simp [submitLoop, hb, hl]
        rw [hstep]
        apply key
        by_cases h1 : i = k
        · simp [h1, rowError, hb, hl]
        · simp [h1]
    · by_cases hv : validateURL parses u = true
      · have hstep : submitLoop parses len (u :: rest) i (errors, validUrls) =
            submitLoop parses len rest (i + 1) (errors, validUrls ++ [jsTrim u]) := by
          simp [submitLoop, hb, hv]
        rw [hstep]
        apply key
        by_cases h1 : i = k
        · simp [h1, rowError, hb, hv]
        · simp [h1]
      · have hstep : submitLoop parses len (u :: rest) i (errors, validUrls) =
            submitLoop parses len rest (i + 1) (errors.set i msgInvalid, validUrls) := by
          simp [submitLoop, hb, hv]
        rw [hstep]
        apply key
        by_cases h1 : i = k
        · subst h1
          simp [rowError, hb, hv, ErrorMap.get_set_self]
        · have h2 : k ≠ i := fun e => h1 e.symm
          simp [h1, ErrorMap.get_set_of_ne _ _ _ _ h2]

theorem ErrorMap.eq_nil_of_get_none (m : ErrorMap) (h : ∀ k, m.get k = none) : m = [] := by
  cases m with
  | nil => rfl
  | cons p rest =>
    obtain ⟨k, v⟩ := p
    have := h k
    simp [ErrorMap.get] at this

theorem ErrorMap.keys_length_pos (m : ErrorMap) (k : Nat) (h : m.get k ≠ none) :
    m.keys.length > 0 := by
  have hk := (ErrorMap.mem_keys_iff m k).mpr h
  exact List.length_pos_of_mem hk

theorem handleSubmit_eq (parses : String → Bool) (s : State) :
    handleSubmit parses s =
      if (submitLoop parses s.urls.length s.urls 0 ([], [])).1.keys.length > 0 then
        ({ urls := s.urls, urlErrors := (submitLoop parses s.urls.length s.urls 0 ([], [])).1 },
          none)
      else if (submitLoop parses s.urls.length s.urls 0 ([], [])).2.length = 0 then
        ({ urls := s.urls, urlErrors := [(0, msgAtLeastOne)] }, none)
      else
        (s, some (submitLoop parses s.urls.length s.urls 0 ([], [])).2) := by
  unfold handleSubmit
  rfl

theorem loopError_zero (parses : String → Bool) (len : Nat) (urls : List String) (k : Nat) :
    loopError parses len urls 0 k = (urls[k]?).bind (rowError parses len) := by
  simp [loopError]

/-- With a non-blank row present, a blank row is never the only row. -/
theorem length_ne_one_of_blank (urls : List String) (u w : String) (hu : u ∈ urls)
    (hub : isBlank u = false) (hw : w ∈ urls) (hwb : isBlank w = true) :
    urls.length ≠ 1 := by
  intro hlen
  match urls, hlen with
  | [x], _ =>
    simp only [List.mem_singleton] at hu hw
    subst hu
    subst hw
    simp [hub] at hwb

/-! ## Properties of the URL collector -/

/-- C1. Removing row `index` from more than one row moves every error with a key above
`index` down by one, keeps every error with a key below `index` in place, drops the
error of key `index`, and creates no other key: the new object at `j` reads what the
old one read at `j` (below `index`) or at `j + 1` (from `index` on). -/
theorem handleRemoveUrl_reindexes_errors (s : State) (index : Nat)
    (hlen : s.urls.length > 1) :
    (∀ k, k > index →
      (handleRemoveUrl s index).urlErrors.get (k - 1) = s.urlErrors.get k) ∧
    (∀ k, k < index →
      (handleRemoveUrl s index).urlErrors.get k = s.urlErrors.get k) ∧
    (∀ j, (handleRemoveUrl s index).urlErrors.get j =
      if j < index then s.urlErrors.get j else s.urlErrors.get (j + 1)) ∧
    (∀ j, j ∈ (handleRemoveUrl s index).urlErrors.keys →
      (j < index ∧ j ∈ s.urlErrors.keys) ∨ (index ≤ j ∧ j + 1 ∈ s.urlErrors.keys)) := by
  have hne : s.urls.length ≠ 1 := by omega
  have hget : ∀ j, (handleRemoveUrl s index).urlErrors.get j =
      s.urlErrors.get (sourceKey index j) := by
    intro j
    simp only [handleRemoveUrl, hne, if_false]
    exact get_reindexErrors s.urlErrors index j
  refine ⟨?_, ?_, ?_, ?_⟩
  · intro k hk
    rw [hget]
    have : sourceKey index (k - 1) = k := by
      unfold sourceKey
      split <;> omega
    rw [this]
  · intro k hk
    rw [hget]
    simp [sourceKey, hk]
  · intro j
    rw [hget]
    unfold sourceKey
    split <;> rfl
  · intro j hj
    rw [ErrorMap.mem_keys_iff, hget] at hj
    unfold sourceKey at hj
    by_cases h : j < index
    · left
      simp only [h, if_true] at hj
      exact ⟨h, (ErrorMap.mem_keys_iff _ _).mpr hj⟩
    · right
      simp only [h, if_false] at hj
      exact ⟨by omega, (ErrorMap.mem_keys_iff _ _).mpr hj⟩

/-- Instance of C1: three rows with an error each, the middle row removed. -/
theorem handleRemoveUrl_reindexes_errors_witness :
    (handleRemoveUrl ⟨["a", "b", "c"], [(0, "x"), (1, "y"), (2, "z")]⟩ 1).urlErrors.get 1
      = some "z" :=
  (handleRemoveUrl_reindexes_errors ⟨["a", "b", "c"], [(0, "x"), (1, "y"), (2, "z")]⟩ 1
    (by decide)).1 2 (by decide)

/-- C10. For a valid index, `handleRemoveUrl` leaves one row fewer when there was more
than one row, leaves the state as it is when there was exactly one, and so always
leaves at least one row. -/
theorem handleRemoveUrl_count (s : State) (index : Nat) (hindex : index < s.urls.length) :
    (s.urls.length > 1 → (handleRemoveUrl s index).urls.length = s.urls.length - 1) ∧
    (s.urls.length = 1 → handleRemoveUrl s index = s) ∧
    1 ≤ (handleRemoveUrl s index).urls.length := by
  have hfilter := length_filterNotIndex index s.urls 0 (Nat.zero_le _) (by omega)
  refine ⟨?_, ?_, ?_⟩
  · intro h
    have hne : s.urls.length ≠ 1 := by omega
    simp only [handleRemoveUrl, hne, if_false]
    omega
  · intro h
    simp [handleRemoveUrl, h]
  · by_cases h : s.urls.length = 1
    · simp [handleRemoveUrl, h]
    · simp only [handleRemoveUrl, h, if_false]
      omega

/-- Instance of C10: removing the first of two rows leaves one row. -/
theorem handleRemoveUrl_count_witness :
    (handleRemoveUrl ⟨["a", "b"], []⟩ 0).urls.length = 2 - 1 :=
  (handleRemoveUrl_count ⟨["a", "b"], []⟩ 0 (by decide)).1 (by decide)

/-- C3. When some row is non-blank and every non-blank row passes `validateURL`,
`handleSubmit` calls `onExtract` with the trimmed texts of the non-blank rows, in row
order. -/
theorem handleSubmit_valid_rows (parses : String → Bool) (s : State)
    (hsome : ∃ u ∈ s.urls, isBlank u = false)
    (hvalid : ∀ u ∈ s.urls, isBlank u = false → validateURL parses u = true) :
    handleSubmit parses s =
      (s, some ((s.urls.filter (fun u => !isBlank u)).map jsTrim)) := by
  obtain ⟨w, hw, hwb⟩ := hsome
  have herr : (submitLoop parses s.urls.length s.urls 0 ([], [])).1 = [] := by
    apply ErrorMap.eq_nil_of_get_none
    intro k
    rw [submitLoop_get, loopError_zero]
    cases hk : s.urls[k]? with
    | none => simp [ErrorMap.get]
    | some u =>
      have hu : u ∈ s.urls := List.getElem?_mem hk
      have hrow : rowError parses s.urls.length u = none := by
        by_cases hb : isBlank u = true
        · have := length_ne_one_of_blank s.urls w u hw hwb hu hb
          simp [rowError, hb, this]
        · have hb2 : isBlank u = false := by simpa using hb
          simp [rowError, hb2, hvalid u hu hb2]
      simp [hrow, ErrorMap.get]
  have hfilter : s.urls.filter (fun u => !isBlank u && validateURL parses u) =
      s.urls.filter (fun u => !isBlank u) := by
    apply List.filter_congr
    intro u hu
    by_cases hb : isBlank u = true
    · simp [hb]
    · have hb2 : isBlank u = false := by simpa using hb
      simp [hb2, hvalid u hu hb2]
  have hval : (submitLoop parses s.urls.length s.urls 0 ([], [])).2 =
      (s.urls.filter (fun u => !isBlank u)).map jsTrim := by
    rw [submitLoop_snd, hfilter]
    simp
  have hne : ((s.urls.filter (fun u => !isBlank u)).map jsTrim).length ≠ 0 := by
    have hmem : w ∈ s.urls.filter (fun u => !isBlank u) := by
      simp [List.mem_filter, hw, hwb]
    have := List.length_pos_of_mem hmem
    simp only [List.length_map]
    omega
  rw [handleSubmit_eq, herr, hval]
  simp only [ErrorMap.keys, List.map_nil, List.length_nil, gt_iff_lt, lt_self_iff_false,
    if_false, hne]

/-- Instance of C3: the rows `https://a.com` and a blank row. -/
theorem handleSubmit_valid_rows_witness :
    handleSubmit sampleUrlParser ⟨["https://a.com", ""], []⟩ =
      (⟨["https://a.com", ""], []⟩, some ["https://a.com"]) :=
  handleSubmit_valid_rows sampleUrlParser ⟨["https://a.com", ""], []⟩ (by decide) (by decide)

/-- C4. When some non-blank row fails `validateURL`, `handleSubmit` returns without
calling `onExtract`, whatever the other rows hold, and the error object it publishes
has the message "Please enter a valid URL" at each failing non-blank row and no key
anywhere else. -/
theorem handleSubmit_invalid (parses : String → Bool) (s : State)
    (hbad : ∃ u ∈ s.urls, isBlank u = false ∧ validateURL parses u = false) :
    (handleSubmit parses s).2 = none ∧
    (handleSubmit parses s).1.urls = s.urls ∧
    (∀ k u, s.urls[k]? = some u → isBlank u = false → validateURL parses u = false →
      (handleSubmit parses s).1.urlErrors.get k = some msgInvalid) ∧
    (∀ k, (handleSubmit parses s).1.urlErrors.get k ≠ none →
      ∃ u, s.urls[k]? = some u ∧ isBlank u = false ∧ validateURL parses u = false) := by
  obtain ⟨w, hw, hwb, hwv⟩ := hbad
  have hget : ∀ k, (submitLoop parses s.urls.length s.urls 0 ([], [])).1.get k =
      (s.urls[k]?).bind (rowError parses s.urls.length) := by
    intro k
    rw [submitLoop_get, loopError_zero]
    cases (s.urls[k]?).bind (rowError parses s.urls.length) <;> simp [ErrorMap.get]
  have hrow : ∀ u ∈ s.urls, rowError parses s.urls.length u =
      if isBlank u = false ∧ validateURL parses u = false then some msgInvalid else none := by
    intro u hu
    by_cases hb : isBlank u = true
    · have := length_ne_one_of_blank s.urls w u hw hwb hu hb
      simp [rowError, hb, this]
    · have hb2 : isBlank u = false := by simpa using hb
      by_cases hv : validateURL parses u = true
      · simp [rowError, hb2, hv]
      · have hv2 : validateURL parses u = false := by simpa using hv
        simp [rowError, hb2, hv2]
  obtain ⟨n, hn⟩ := List.mem_iff_getElem?.mp hw
  have hpos : (submitLoop parses s.urls.length s.urls 0 ([], [])).1.keys.length > 0 := by
    apply ErrorMap.keys_length_pos _ n
    rw [hget n, hn]
    simp [hrow w hw, hwb, hwv]
  rw [handleSubmit_eq]
  simp only [hpos, if_true]
  refine ⟨trivial, trivial, ?_, ?_⟩
  · intro k u hk hb hv
    rw [hget k, hk]
    simp [hrow u (List.getElem?_mem hk), hb, hv]
  · intro k hk
    rw [hget k] at hk
    cases hu : s.urls[k]? with
    | none => simp [hu] at hk
    | some u =>
      rw [hu] at hk
      simp only [Option.some_bind] at hk
      rw [hrow u (List.getElem?_mem hu)] at hk
      by_cases hc : isBlank u = false ∧ validateURL parses u = false
      · exact ⟨u, rfl, hc.1, hc.2⟩
      · simp [hc] at hk

/-- Instance of C4: a valid row followed by the row `not-a-url`. -/
theorem handleSubmit_invalid_witness :
    (handleSubmit sampleUrlParser ⟨["https://a.com", "not-a-url"], []⟩).2 = none ∧
    (handleSubmit sampleUrlParser ⟨["https://a.com", "not-a-url"], []⟩).1.urlErrors.get 1
      = some msgInvalid ∧
    (handleSubmit sampleUrlParser ⟨["not-a-url"], []⟩).1.urlErrors.get 0 = some msgInvalid :=
  ⟨(handleSubmit_invalid sampleUrlParser ⟨["https://a.com", "not-a-url"], []⟩
      (by decide)).1,
    (handleSubmit_invalid sampleUrlParser ⟨["https://a.com", "not-a-url"], []⟩
      (by decide)).2.2.1 1 "not-a-url" (by decide) (by decide) (by decide),
    (handleSubmit_invalid sampleUrlParser ⟨["not-a-url"], []⟩
      (by decide)).2.2.1 0 "not-a-url" (by decide) (by decide) (by decide)⟩

theorem handleSubmit_of_all_blank (parses : String → Bool) (s : State)
    (hlen : 1 ≤ s.urls.length) (hblank : ∀ u ∈ s.urls, isBlank u = true) :
    handleSubmit parses s = ({ urls := s.urls, urlErrors := [(0, msgAtLeastOne)] }, none) := by
  by_cases h1 : s.urls.length = 1
  · obtain ⟨urls, errs⟩ := s
    match urls, h1, hblank with
    | [u], _, hblank =>
      have hb : isBlank u = true := hblank u (by simp)
      simp [handleSubmit, submitLoop, hb, ErrorMap.set, ErrorMap.keys]
  · have herr : (submitLoop parses s.urls.length s.urls 0 ([], [])).1 = [] := by
      apply ErrorMap.eq_nil_of_get_none
      intro k
      rw [submitLoop_get, loopError_zero]
      cases hk : s.urls[k]? with
      | none => simp [ErrorMap.get]
      | some u =>
        have hb := hblank u (List.getElem?_mem hk)
        simp [rowError, hb, h1, ErrorMap.get]
    have hfilter : s.urls.filter (fun u => !isBlank u && validateURL parses u) = [] := by
      rw [List.filter_eq_nil_iff]
      intro u hu
      simp [hblank u hu]
    have hval : (submitLoop parses s.urls.length s.urls 0 ([], [])).2 = [] := by
      rw [submitLoop_snd, hfilter]
      rfl
    rw [handleSubmit_eq, herr, hval]
    simp [ErrorMap.keys]

/-- C5. When there is at least one row and every row is blank, `handleSubmit` returns
without calling `onExtract` and publishes exactly the object with the single property
`0: "Please enter at least one URL"`. -/
theorem handleSubmit_all_blank (parses : String → Bool) (s : State)
    (hlen : 1 ≤ s.urls.length) (hblank : ∀ u ∈ s.urls, isBlank u = true) :
    handleSubmit parses s = ({ urls := s.urls, urlErrors := [(0, msgAtLeastOne)] }, none) :=
  handleSubmit_of_all_blank parses s hlen hblank

/-- Instance of C5: one blank row, and two blank rows. -/
theorem handleSubmit_all_blank_witness :
    handleSubmit sampleUrlParser ⟨[""], []⟩ = (⟨[""], [(0, msgAtLeastOne)]⟩, none) ∧
    handleSubmit sampleUrlParser ⟨["", "  "], []⟩ = (⟨["", "  "], [(0, msgAtLeastOne)]⟩, none) :=
  ⟨handleSubmit_all_blank sampleUrlParser ⟨[""], []⟩ (by decide) (by decide),
    handleSubmit_all_blank sampleUrlParser ⟨["", "  "], []⟩ (by decide) (by decide)⟩

/-- C2. A run of the handlers from the initial state: a row is added, the two blank
rows are submitted (which publishes the error at key 0), the second row is set to
`https://a.com`, and the rows are submitted again.  Whenever the URL parser accepts
`https://a.com`, the second submission calls `onExtract` and the error at key 0 is
still in the error object. -/
theorem stale_error_survives_submit (parses : String → Bool)
    (hparses : parses "https://a.com" = true) :
    handleSubmit parses
        (handleUrlChange (handleSubmit parses (handleAddUrl State.init)).1 1 "https://a.com") =
      ({ urls := ["", "https://a.com"], urlErrors := [(0, msgAtLeastOne)] },
        some ["https://a.com"]) := by
  have hb1 : isBlank "" = true := by decide
  have hb2 : isBlank "https://a.com" = false := by decide
  have ht : jsTrim "https://a.com" = "https://a.com" := by decide
  have h1 : handleSubmit parses (handleAddUrl State.init) =
      ({ urls := ["", ""], urlErrors := [(0, msgAtLeastOne)] }, none) :=
    handleSubmit_of_all_blank parses (handleAddUrl State.init) (by decide) (by decide)
  have h2 : handleUrlChange { urls := ["", ""], urlErrors := [(0, msgAtLeastOne)] } 1
      "https://a.com" = { urls := ["", "https://a.com"], urlErrors := [(0, msgAtLeastOne)] } := by
    decide
  rw [h1, h2]
  simp [handleSubmit, submitLoop, hb1, hb2, ht, validateURL, hparses, ErrorMap.keys]

/-- Instance of C2 with the sample URL parser. -/
theorem stale_error_survives_submit_witness :
    (handleSubmit sampleUrlParser
        (handleUrlChange (handleSubmit sampleUrlParser (handleAddUrl State.init)).1 1
          "https://a.com")).1.urlErrors = [(0, msgAtLeastOne)] :=
  congrArg (fun r => r.1.urlErrors)
    (stale_error_survives_submit sampleUrlParser (by decide))

theorem keys_delete_subset (m : ErrorMap) (index k : Nat) (h : k ∈ (m.delete index).keys) :
    k ∈ m.keys := by
  rw [ErrorMap.mem_keys_iff] at h ⊢
  by_cases hk : k = index
  · subst hk
    rw [ErrorMap.get_delete_self] at h
    exact absurd rfl h
  · rwa [ErrorMap.get_delete_of_ne _ _ _ hk] at h

/-- The invariant carried along the reachable states: there is a row, and every error
key is the index of a row. -/
theorem reachable_invariant (parses : String → Bool) (s : State) (h : Reachable parses s) :
    1 ≤ s.urls.length ∧ ∀ k ∈ s.urlErrors.keys, k < s.urls.length := by
  induction h with
  | init => simp [State.init, ErrorMap.keys]
  | updateEntry s index value _ hindex ih =>
    obtain ⟨hlen, hkeys⟩ := ih
    unfold handleUrlChange
    cases hg : s.urlErrors.get index with
    | none => simpa using ⟨hlen, hkeys⟩
    | some msg =>
      by_cases hm : msg = ""
      · simpa [hm] using ⟨hlen, hkeys⟩
      · simp only [ne_eq, hm, not_false_eq_true, if_true, List.length_set]
        exact ⟨hlen, fun k hk => hkeys k (keys_delete_subset _ _ _ hk)⟩
  | addEntry s _ ih =>
    obtain ⟨hlen, hkeys⟩ := ih
    simp only [handleAddUrl, List.length_append, List.length_singleton]
    exact ⟨by omega, fun k hk => Nat.lt_succ_of_lt (hkeys k hk)⟩
  | removeEntry s index _ hindex ih =>
    obtain ⟨hlen, hkeys⟩ := ih
    by_cases h1 : s.urls.length = 1
    · simpa [handleRemoveUrl, h1] using hkeys
    · have hfilter := length_filterNotIndex index s.urls 0 (Nat.zero_le _) (by omega)
      simp only [handleRemoveUrl, h1, if_false]
      refine ⟨by omega, ?_⟩
      intro k hk
      rw [ErrorMap.mem_keys_iff, get_reindexErrors] at hk
      have hsrc := hkeys _ ((ErrorMap.mem_keys_iff _ _).mpr hk)
      unfold sourceKey at hsrc
      split at hsrc <;> omega
  | submit s _ ih =>
    obtain ⟨hlen, hkeys⟩ := ih
    rw [handleSubmit_eq]
    by_cases h1 : (submitLoop parses s.urls.length s.urls 0 ([], [])).1.keys.length > 0
    · simp only [h1, if_true]
      refine ⟨hlen, ?_⟩
      intro k hk
      rw [ErrorMap.mem_keys_iff, submitLoop_get, loopError_zero] at hk
      cases hu : s.urls[k]? with
      | none => simp [hu, ErrorMap.get] at hk
      | some u => exact (List.getElem?_eq_some.mp hu).1
    · by_cases h2 : (submitLoop parses s.urls.length s.urls 0 ([], [])).2.length = 0
      · simp only [h1, h2, if_true, if_false]
        refine ⟨hlen, ?_⟩
        intro k hk
        simp only [ErrorMap.keys, List.map_cons, List.map_nil, List.mem_singleton] at hk
        omega
      · simp only [h1, h2, if_false]
        exact ⟨hlen, hkeys⟩

/-- C9. In every state reachable from the initial one by `handleUrlChange` (valid
index), `handleAddUrl`, `handleRemoveUrl` (valid index) and `handleSubmit`, every key of
the error object is the index of an existing row. -/
theorem errorKeys_valid (parses : String → Bool) (s : State) (h : Reachable parses s) :
    ∀ k ∈ s.urlErrors.keys, k < s.urls.length :=
  (reachable_invariant parses s h).2

/-- Instance of C9: the state after submitting the initial blank row. -/
theorem errorKeys_valid_witness :
    0 < (handleSubmit sampleUrlParser State.init).1.urls.length :=
  errorKeys_valid sampleUrlParser (handleSubmit sampleUrlParser State.init).1
    (Reachable.submit State.init Reachable.init) 0 (by decide)

/-! ## Properties of the extraction orchestrator -/

theorem handleExtract_of_error (eng : Engine) (s : AppState) (o : FetchOutcome) (err : Thrown)
    (h : extractTry eng o = .error err) :
    handleExtract eng s o = { modules := none, loading := false, error := err } := by
  simp [handleExtract, h]

theorem handleExtract_of_modules (eng : Engine) (s : AppState) (o : FetchOutcome)
    (v : JsValue) (h : extractTry eng o = .ok (some v)) :
    handleExtract eng s o = { modules := some v, loading := false, error := none } := by
  simp [handleExtract, h]

theorem handleExtract_of_empty (eng : Engine) (s : AppState) (o : FetchOutcome)
    (h : extractTry eng o = .ok none) :
    handleExtract eng s o = { modules := none, loading := false, error := some msgNoModules } := by
  simp [handleExtract, h]

/-- The `try` block on a non-success response whose body is a value other than `null`
and `undefined`, `detail` being what the property read returns. -/
theorem extractTry_error_response (eng : Engine) (v detail : JsValue)
    (hread : v.getProp eng "detail" = .ok detail) :
    extractTry eng (.response false (.json v)) =
      (match (if detail.truthy then detail else JsValue.string msgGeneric).toStr eng with
        | .ok message => .error (some message)
        | .error err => .error err) := by
  simp only [extractTry, Body.read, Bool.not_false, if_true, bind, Except.bind, hread]
  cases (if detail.truthy then detail else JsValue.string msgGeneric).toStr eng <;> rfl

/-- C7 (amended). On every non-success response, `handleExtract` ends with modules
absent, loading off, and the error set as follows.  When the body parses to a value
other than `null` (an object, array, string, number or boolean), the error is the
string form of its `detail` when `detail` is present and truthy (the detail itself
when it is a non-empty string), and exactly "Failed to extract modules" otherwise: no
`detail`, a falsy `detail`, or a body that is an array, string, number or boolean.
When the body does not parse, or parses to `null`, the error is the message of the
exception raised in the `try` block. -/
theorem handleExtract_error_response (eng : Engine) (s : AppState) :
    (∀ v d, v.getProp eng "detail" = .ok (.string d) → d ≠ "" →
      handleExtract eng s (.response false (.json v)) =
        { modules := none, loading := false, error := some d }) ∧
    (∀ v detail, v.getProp eng "detail" = .ok detail → detail.truthy = true →
      handleExtract eng s (.response false (.json v)) =
        { modules := none, loading := false,
          error := (match detail.toStr eng with
            | .ok message => some message
            | .error err => err) }) ∧
    (∀ v detail, v.getProp eng "detail" = .ok detail → detail.truthy = false →
      handleExtract eng s (.response false (.json v)) =
        { modules := none, loading := false, error := some msgGeneric }) ∧
    (∀ props, JsValue.lookup "detail" props = none →
      handleExtract eng s (.response false (.json (.object props))) =
        { modules := none, loading := false, error := some msgGeneric }) ∧
    (∀ items, handleExtract eng s (.response false (.json (.array items))) =
        { modules := none, loading := false, error := some msgGeneric }) ∧
    (∀ text, handleExtract eng s (.response false (.json (.string text))) =
        { modules := none, loading := false, error := some msgGeneric }) ∧
    (∀ q, handleExtract eng s (.response false (.json (.number q))) =
        { modules := none, loading := false, error := some msgGeneric }) ∧
    (∀ b, handleExtract eng s (.response false (.json (.bool b))) =
        { modules := none, loading := false, error := some msgGeneric }) ∧
    (∀ err, handleExtract eng s (.response false (.invalid err)) =
        { modules := none, loading := false, error := err }) ∧
    (handleExtract eng s (.response false (.json .null)) =
        { modules := none, loading := false, error := eng.nullAccess "detail" }) := by
  have hfalsy : ∀ v detail, v.getProp eng "detail" = .ok detail → detail.truthy = false →
      handleExtract eng s (.response false (.json v)) =
        { modules := none, loading := false, error := some msgGeneric } := by
    intro v detail hread hf
    apply handleExtract_of_error
    rw [extractTry_error_response eng v detail hread]
    simp [hf, JsValue.toStr]
  refine ⟨?_, ?_, hfalsy, ?_, ?_, ?_, ?_, ?_, ?_, ?_⟩
  · intro v d hread hne
    apply handleExtract_of_error
    rw [extractTry_error_response eng v (.string d) hread]
    simp [JsValue.truthy, hne, JsValue.toStr]
  · intro v detail hread ht
    apply handleExtract_of_error
    rw [extractTry_error_response eng v detail hread]
    simp only [ht, if_true]
    cases detail.toStr eng <;> rfl
  · intro props hd
    exact hfalsy (.object props) .undefined (by simp [JsValue.getProp, hd]) rfl
  · intro items
    exact hfalsy (.array items) .undefined (by simp [JsValue.getProp]) rfl
  · intro text
    exact hfalsy (.string text) .undefined (by simp [JsValue.getProp]) rfl
  · intro q
    exact hfalsy (.number q) .undefined (by simp [JsValue.getProp]) rfl
  · intro b
    exact hfalsy (.bool b) .undefined (by simp [JsValue.getProp]) rfl
  · intro err
    apply handleExtract_of_error
    simp [extractTry, Body.read, bind, Except.bind]
  · apply handleExtract_of_error
    simp [extractTry, Body.read, bind, Except.bind, JsValue.getProp]

/-- Instance of C7: the detail "Rate limit exceeded, 429" becomes the error, and the
quota test of the banner holds of it. -/
theorem handleExtract_error_response_witness :
    handleExtract sampleEngine AppState.init
        (.response false (.json (.object [("detail", .string "Rate limit exceeded, 429")]))) =
      { modules := none, loading := false, error := some "Rate limit exceeded, 429" } ∧
    isQuotaError "Rate limit exceeded, 429" = true :=
  ⟨(handleExtract_error_response sampleEngine AppState.init).1
      (.object [("detail", .string "Rate limit exceeded, 429")]) "Rate limit exceeded, 429"
      rfl (by decide),
    by decide⟩

/-- C7 as stated fails: a non-success response whose body does not parse as JSON, or
parses to `null`, ends with the message of the raised exception as the error, not with
"Failed to extract modules". -/
theorem handleExtract_unparsed_body_not_generic :
    (handleExtract sampleEngine AppState.init
        (.response false (.invalid (some "Unexpected token < in JSON at position 0")))).error
      = some "Unexpected token < in JSON at position 0" ∧
    (handleExtract sampleEngine AppState.init
        (.response false (.invalid (some "Unexpected token < in JSON at position 0")))).error
      ≠ some msgGeneric ∧
    (handleExtract sampleEngine AppState.init (.response false (.json .null))).error
      ≠ some msgGeneric := by
  decide

/-- C8. On a success response that carries the module sequence `ms`, either as the
`modules` property of an object or as the payload itself, the state ends with the
modules set to that sequence and no error when the sequence is non-empty, and with
the "No modules found" error and no modules when it is empty. -/
theorem handleExtract_success_response (eng : Engine) (s : AppState) (data : JsValue)
    (ms : List JsValue)
    (hshape : (∃ props, data = .object props ∧
        JsValue.lookup "modules" props = some (.array ms)) ∨ data = .array ms) :
    (ms ≠ [] → handleExtract eng s (.response true (.json data)) =
      { modules := some (.array ms), loading := false, error := none }) ∧
    (ms = [] → handleExtract eng s (.response true (.json data)) =
      { modules := none, loading := false, error := some msgNoModules }) := by
  have htry : extractTry eng (.response true (.json data)) =
      if 0 < ms.length then .ok (some (.array ms)) else .ok none := by
    rcases hshape with ⟨props, hdata, hlookup⟩ | hdata
    · subst hdata
      by_cases hpos : 0 < ms.length
      · simp [extractTry, Body.read, bind, Except.bind, JsValue.getProp, hlookup,
          JsValue.truthy, JsValue.gtZero, pure, Except.pure, hpos]
      · simp [extractTry, Body.read, bind, Except.bind, JsValue.getProp, hlookup,
          JsValue.truthy, JsValue.gtZero, pure, Except.pure, hpos]
    · subst hdata
      by_cases hpos : 0 < ms.length
      · simp [extractTry, Body.read, bind, Except.bind, JsValue.getProp,
          JsValue.truthy, JsValue.gtZero, pure, Except.pure, hpos]
      · simp [extractTry, Body.read, bind, Except.bind, JsValue.getProp,
          JsValue.truthy, JsValue.gtZero, pure, Except.pure, hpos]
  constructor
  · intro hne
    apply handleExtract_of_modules
    rw [htry]
    simp [List.length_pos, hne]
  · intro he
    apply handleExtract_of_empty
    rw [htry]
    simp [he]

/-- Instance of C8: the payload with an empty `modules` array. -/
theorem handleExtract_success_response_witness :
    handleExtract sampleEngine AppState.init
        (.response true (.json (.object [("modules", .array [])]))) =
      { modules := none, loading := false, error := some msgNoModules } :=
  (handleExtract_success_response sampleEngine AppState.init
    (.object [("modules", .array [])]) [] (Or.inl ⟨_, rfl, rfl⟩)).2 rfl

/-- C6 as stated fails: after a rejection that carries no message, and after a
non-success response whose `detail` is the empty array (a truthy value that prints as
the empty string), loading is off but the state is neither `Success` nor `Failure`. -/
theorem handleExtract_neither_success_nor_failure :
    (handleExtract sampleEngine AppState.init (.rejected none)).loading = false ∧
    (handleExtract sampleEngine AppState.init (.rejected none)).isSuccess = false ∧
    (handleExtract sampleEngine AppState.init (.rejected none)).isFailure = false ∧
    (handleExtract sampleEngine AppState.init
        (.response false (.json (.object [("detail", .array [])])))).error = some "" ∧
    (handleExtract sampleEngine AppState.init
        (.response false (.json (.object [("detail", .array [])])))).isSuccess = false ∧
    (handleExtract sampleEngine AppState.init
        (.response false (.json (.object [("detail", .array [])])))).isFailure = false := by
  decide

/-- C6 (amended). Whatever the outcome of the request, once `handleExtract` has
completed loading is off, the state is not both `Success` and `Failure`, and it is one
of the two unless the `try` block raised an exception whose message is absent or
empty, in which case modules are absent and no error is displayed. -/
theorem handleExtract_terminal (eng : Engine) (s : AppState) (o : FetchOutcome) :
    (handleExtract eng s o).loading = false ∧
    ¬ ((handleExtract eng s o).isSuccess = true ∧ (handleExtract eng s o).isFailure = true) ∧
    ((handleExtract eng s o).isSuccess = true ∨ (handleExtract eng s o).isFailure = true ∨
      ((extractTry eng o = .error none ∨ extractTry eng o = .error (some "")) ∧
        (handleExtract eng s o).modules.isNone = true ∧
        ((handleExtract eng s o).error = none ∨ (handleExtract eng s o).error = some ""))) := by
  cases htry : extractTry eng o with
  | error err =>
    rw [handleExtract_of_error eng s o err htry]
    cases err with
    | none => simp [AppState.isSuccess, AppState.isFailure]
    | some message =>
      by_cases hm : message = ""
      · simp [AppState.isSuccess, AppState.isFailure, hm]
      · simp [AppState.isSuccess, AppState.isFailure, hm]
  | ok r =>
    cases r with
    | none =>
      rw [handleExtract_of_empty eng s o htry]
      have : msgNoModules ≠ "" := by decide
      simp [AppState.isSuccess, AppState.isFailure, this]
    | some v =>
      rw [handleExtract_of_modules eng s o v htry]
      simp [AppState.isSuccess, AppState.isFailure]

end PulseGen
